import Mathlib

/-
  Shallow embedding of the Application Service of baetyl-cloud
  (src/service/application.go), together with proofs of the claims
  about its behaviour.

  External collaborators (the resource store, the history database and
  the index service) are modelled as an `Env` of oracle functions; every
  call the service makes to a collaborator is additionally recorded in a
  trace of `Event`s, so that claims about which calls were issued and
  with which arguments can be stated.  Go's in-place mutation of the
  caller's `*Application` is modelled by returning the caller's final
  view of the argument alongside the result.
-/

set_option maxHeartbeats 1000000

namespace Baetyl

/-- A Config or Secret reference embedded in a Volume: a (name, version) pin. -/
structure ObjectReference where
  name : String
  version : String
deriving DecidableEq

/-- A named attachment point that may reference a Config or a Secret. -/
structure Volume where
  name : String
  config : Option ObjectReference := none
  secret : Option ObjectReference := none
deriving DecidableEq

/-- A mount of a Volume inside a Service, by Volume name. -/
structure VolumeMount where
  name : String
deriving DecidableEq

/-- One Service of an Application (named, with its volume mounts). -/
structure AppService where
  name : String
  volumeMounts : List VolumeMount := []
deriving DecidableEq

/-- A versioned workload specification. -/
structure Application where
  nameSpace : String
  name : String
  version : String
  services : List AppService := []
  volumes : List Volume := []
deriving DecidableEq

/-- A Config resource as stored in the resource store. -/
structure Config where
  name : String
  version : String
deriving DecidableEq

/-- A Secret resource as stored in the resource store. -/
structure Secret where
  name : String
  version : String
deriving DecidableEq

/-- The string constant "app" used as the resource type of applications. -/
def appT : String := "app"

/-- The string constant "config" used as the resource type of configs. -/
def configT : String := "config"

/-- The string constant "not found" that Get searches for in error text. -/
def notFoundText : String := "not found"

/-- The "Volumes[]" location tag of name-conflict errors. -/
def volumesWhere : String := "Volumes[]"

/-- The "Services[]" location tag of name-conflict errors. -/
def servicesWhere : String := "Services[]"

/-- The empty version string passed to GetConfig/GetSecret lookups. -/
def emptyV : String := ""

/-- The separator inserted before the random token when renaming a config. -/
def dash : String := "-"

/-- Errors produced by the service or returned by collaborators. -/
inductive Err where
  | store (msg : String)
  | resourceNotFound (ty name : String)
  | resourceNotFoundNs (ty ns name : String)
  | appNameConflict (whe name : String)
  | volumeNotFoundWhenMount (name : String)
deriving DecidableEq

/-- The rendered message of an error, as inspected by Get. -/
def Err.text : Err → String
  | .store m => m
  | .resourceNotFound ty n => "The " ++ ty ++ " resource (" ++ n ++ ") is not found"
  | .resourceNotFoundNs ty ns n =>
      "The " ++ ty ++ " resource (" ++ n ++ ") in namespace " ++ ns ++ " is not found"
  | .appNameConflict w n => "name " ++ n ++ " is conflict in " ++ w
  | .volumeNotFoundWhenMount n => "volume " ++ n ++ " referenced by volumeMounts does not exist"

/-- `startsL needle hay` holds when `needle` is an initial run of `hay`. -/
def startsL : List Char → List Char → Bool
  | [], _ => true
  | _ :: _, [] => false
  | a :: asx, b :: bs => a == b && startsL asx bs

/-- `subIn needle hay`: the characters `needle` occur contiguously in `hay`. -/
def subIn (needle : List Char) : List Char → Bool
  | [] => needle.isEmpty
  | c :: rest => startsL needle (c :: rest) || subIn needle rest

/-- Model of Go strings.Contains: `sub` occurs as a substring of `s`. -/
def strContains (s sub : String) : Bool :=
  subIn sub.toList s.toList

/-- One call issued by the service to a collaborator, with its arguments. -/
inductive Event where
  | storeGetApp (ns name version : String)
  | storeCreateApp (ns : String) (app : Application)
  | storeUpdateApp (ns : String) (app : Application)
  | storeDeleteApp (ns name : String)
  | storeGetConfig (ns name version : String)
  | storeCreateConfig (ns : String) (cfg : Config)
  | storeGetSecret (ns name version : String)
  | refreshConfigIndex (ns appName : String) (configs : List String)
  | refreshSecretIndex (ns appName : String) (secrets : List String)
  | dbCreateApp (app : Application)
  | dbDeleteApp (ns name version : String)
deriving DecidableEq

/-- The behaviour of the three external collaborators, as oracle functions.
`randString` models common.RandString. -/
structure Env where
  getApplication : String → String → String → Except Err Application
  createApplication : String → Application → Except Err Application
  updateApplication : String → Application → Except Err Application
  deleteApplication : String → String → Except Err Unit
  getConfig : String → String → String → Except Err Config
  createConfig : String → Config → Except Err Config
  getSecret : String → String → String → Except Err Secret
  refreshConfigIndexByApp : String → String → List String → Except Err Unit
  refreshSecretIndexByApp : String → String → List String → Except Err Unit
  dbCreateApplication : Application → Except Err Unit
  dbDeleteApplication : String → String → String → Except Err Unit
  randString : Nat → String

/-- First duplicate Volume name in declaration order, given names already seen. -/
def firstDupName (seen : List String) : List Volume → Option String
  | [] => none
  | v :: vs => if v.name ∈ seen then some v.name else firstDupName (v.name :: seen) vs

/-- The Volume pass of validName: collect names, failing on the first duplicate. -/
def checkVolumes (seen : List String) : List Volume → Except Err (List String)
  | [] => .ok seen
  | v :: vs =>
    if v.name ∈ seen then .error (Err.appNameConflict volumesWhere v.name)
    else checkVolumes (v.name :: seen) vs

/-- First VolumeMount of a Service whose name is not a declared Volume name. -/
def firstBadMount (vf : List String) : List VolumeMount → Option String
  | [] => none
  | m :: ms => if m.name ∈ vf then firstBadMount vf ms else some m.name

/-- The Service pass of validName: duplicate Service names and dangling mounts. -/
def checkServices (vf : List String) (seen : List String) :
    List AppService → Except Err Unit
  | [] => .ok ()
  | s :: ss =>
    if s.name ∈ seen then .error (Err.appNameConflict servicesWhere s.name)
    else
      match firstBadMount vf s.volumeMounts with
      | some n => .error (Err.volumeNotFoundWhenMount n)
      | none => checkServices vf (s.name :: seen) ss

/-- validName of application.go: all Volumes are checked first, then all
Services and their mounts against the complete Volume name set. -/
def validName (app : Application) : Except Err Unit :=
  match checkVolumes [] app.volumes with
  | .error e => .error e
  | .ok vf => checkServices vf [] app.services

/-- Resolution of one Volume's references: fetch the Config and Secret by
name and overwrite the reference's version in place.  Returns the updated
Volume, the collected config and secret names, the events, and the error
if a fetch failed (in which case resolution of this Volume stopped there). -/
def resolveVolume (env : Env) (ns : String) (vol : Volume) :
    Volume × List String × List String × List Event × Option Err :=
  match vol.config with
  | some ref =>
    match env.getConfig ns ref.name emptyV with
    | .error e => (vol, [], [], [Event.storeGetConfig ns ref.name emptyV], some e)
    | .ok cfg =>
      let vol1 : Volume := { vol with config := some { ref with version := cfg.version } }
      match vol1.secret with
      | some sref =>
        match env.getSecret ns sref.name emptyV with
        | .error e =>
          (vol1, [], [],
            [Event.storeGetConfig ns ref.name emptyV, Event.storeGetSecret ns sref.name emptyV],
            some e)
        | .ok sec =>
          ({ vol1 with secret := some { sref with version := sec.version } },
            [ref.name], [sref.name],
            [Event.storeGetConfig ns ref.name emptyV, Event.storeGetSecret ns sref.name emptyV],
            none)
      | none => (vol1, [ref.name], [], [Event.storeGetConfig ns ref.name emptyV], none)
  | none =>
    match vol.secret with
    | some sref =>
      match env.getSecret ns sref.name emptyV with
      | .error e => (vol, [], [], [Event.storeGetSecret ns sref.name emptyV], some e)
      | .ok sec =>
        ({ vol with secret := some { sref with version := sec.version } },
          [], [sref.name], [Event.storeGetSecret ns sref.name emptyV], none)
    | none => (vol, [], [], [], none)

/-- getConfigsAndSecrets of application.go, acting on the Volume list: walks
the Volumes, overwriting reference versions in place and collecting the
referenced config and secret names; the first fetch failure aborts (the
name lists are then empty, as Go returns nil slices).  Returns the final
Volume list (partially mutated on failure), the events, and the outcome. -/
def getConfigsAndSecrets (env : Env) (ns : String) :
    List Volume → List Volume × List Event × Except Err (List String × List String)
  | [] => ([], [], .ok ([], []))
  | v :: vs =>
    let r := resolveVolume env ns v
    match r.2.2.2.2 with
    | some e => (r.1 :: vs, r.2.2.2.1, .error e)
    | none =>
      let rest := getConfigsAndSecrets env ns vs
      match rest.2.2 with
      | .error e => (r.1 :: rest.1, r.2.2.2.1 ++ rest.2.1, .error e)
      | .ok p => (r.1 :: rest.1, r.2.2.2.1 ++ rest.2.1, .ok (r.2.1 ++ p.1, r.2.2.1 ++ p.2))

/-- Get of application.go: fetch from the store, remapping errors whose text
contains "not found" to a ResourceNotFound of type "app". -/
def Get (env : Env) (ns name version : String) :
    List Event × Except Err Application :=
  match env.getApplication ns name version with
  | .ok app => ([Event.storeGetApp ns name version], .ok app)
  | .error e =>
    if strContains e.text notFoundText then
      ([Event.storeGetApp ns name version], .error (Err.resourceNotFound appT name))
    else
      ([Event.storeGetApp ns name version], .error e)

/-- Create of application.go.  Note that, as in the source, the error of
getConfigsAndSecrets is overwritten unchecked by the first index-refresh
call, so a resolution failure leaves empty name lists and the call goes
on.  Returns (caller's final view of app, events, result). -/
def Create (env : Env) (ns : String) (app : Application) :
    Application × List Event × Except Err Application :=
  let r := getConfigsAndSecrets env ns app.volumes
  let app1 : Application := { app with volumes := r.1 }
  let configs : List String := match r.2.2 with | .ok p => p.1 | .error _ => []
  let secrets : List String := match r.2.2 with | .ok p => p.2 | .error _ => []
  match env.refreshConfigIndexByApp ns app.name configs with
  | .error e =>
    (app1, r.2.1 ++ [Event.refreshConfigIndex ns app.name configs], .error e)
  | .ok _ =>
    match env.refreshSecretIndexByApp ns app.name secrets with
    | .error e =>
      (app1, r.2.1 ++ [Event.refreshConfigIndex ns app.name configs,
        Event.refreshSecretIndex ns app.name secrets], .error e)
    | .ok _ =>
      match env.createApplication ns app1 with
      | .error e =>
        (app1, r.2.1 ++ [Event.refreshConfigIndex ns app.name configs,
          Event.refreshSecretIndex ns app.name secrets,
          Event.storeCreateApp ns app1], .error e)
      | .ok newApp =>
        (app1, r.2.1 ++ [Event.refreshConfigIndex ns app.name configs,
          Event.refreshSecretIndex ns app.name secrets,
          Event.storeCreateApp ns app1, Event.dbCreateApp newApp], .ok newApp)

/-- Update of application.go: validate, resolve references, update the store,
refresh both indexes (failures fatal), then best-effort history write when
the version changed. -/
def Update (env : Env) (ns : String) (app : Application) :
    Application × List Event × Except Err Application :=
  match validName app with
  | .error e => (app, [], .error e)
  | .ok _ =>
    let r := getConfigsAndSecrets env ns app.volumes
    let app1 : Application := { app with volumes := r.1 }
    match r.2.2 with
    | .error e => (app1, r.2.1, .error e)
    | .ok p =>
      match env.updateApplication ns app1 with
      | .error e => (app1, r.2.1 ++ [Event.storeUpdateApp ns app1], .error e)
      | .ok newApp =>
        match env.refreshConfigIndexByApp ns newApp.name p.1 with
        | .error e =>
          (app1, r.2.1 ++ [Event.storeUpdateApp ns app1,
            Event.refreshConfigIndex ns newApp.name p.1], .error e)
        | .ok _ =>
          match env.refreshSecretIndexByApp ns newApp.name p.2 with
          | .error e =>
            (app1, r.2.1 ++ [Event.storeUpdateApp ns app1,
              Event.refreshConfigIndex ns newApp.name p.1,
              Event.refreshSecretIndex ns newApp.name p.2], .error e)
          | .ok _ =>
            if app1.version ≠ newApp.version then
              (app1, r.2.1 ++ [Event.storeUpdateApp ns app1,
                Event.refreshConfigIndex ns newApp.name p.1,
                Event.refreshSecretIndex ns newApp.name p.2,
                Event.dbCreateApp newApp], .ok newApp)
            else
              (app1, r.2.1 ++ [Event.storeUpdateApp ns app1,
                Event.refreshConfigIndex ns newApp.name p.1,
                Event.refreshSecretIndex ns newApp.name p.2], .ok newApp)

/-- Delete of application.go: the primary store delete aborts on failure;
the index refreshes to the empty set and the history deletion are issued
afterwards with their results only logged, never surfaced. -/
def Delete (env : Env) (ns name version : String) :
    List Event × Except Err Unit :=
  match env.deleteApplication ns name with
  | .error e => ([Event.storeDeleteApp ns name], .error e)
  | .ok _ =>
    ([Event.storeDeleteApp ns name,
      Event.refreshConfigIndex ns name [],
      Event.refreshSecretIndex ns name [],
      Event.dbDeleteApp ns name version], .ok ())

/-- constuctConfig of application.go, acting on the base's Volume list:
for every Volume referencing a Config, fetch it from the base namespace
and re-create it in the target namespace, retrying once under a renamed
key on collision; the Volume's reference is updated in place. -/
def constuctConfig (env : Env) (ns bns : String) :
    List Volume → List Volume × List Event × Option Err
  | [] => ([], [], none)
  | v :: vs =>
    match v.config with
    | none =>
      let r := constuctConfig env ns bns vs
      (v :: r.1, r.2.1, r.2.2)
    | some ref =>
      match env.getConfig bns ref.name emptyV with
      | .error _ =>
        (v :: vs, [Event.storeGetConfig bns ref.name emptyV],
          some (Err.resourceNotFoundNs configT bns ref.name))
      | .ok cfg =>
        match env.createConfig ns cfg with
        | .ok c =>
          let r := constuctConfig env ns bns vs
          ({ v with config := some { ref with version := c.version } } :: r.1,
            Event.storeGetConfig bns ref.name emptyV ::
              Event.storeCreateConfig ns cfg :: r.2.1,
            r.2.2)
        | .error _ =>
          let cfg2 : Config := { cfg with name := cfg.name ++ dash ++ env.randString 9 }
          match env.createConfig ns cfg2 with
          | .error e =>
            (v :: vs,
              [Event.storeGetConfig bns ref.name emptyV,
                Event.storeCreateConfig ns cfg, Event.storeCreateConfig ns cfg2],
              some e)
          | .ok c =>
            let r := constuctConfig env ns bns vs
            ({ v with config := some { name := c.name, version := c.version } } :: r.1,
              Event.storeGetConfig bns ref.name emptyV ::
                Event.storeCreateConfig ns cfg ::
                Event.storeCreateConfig ns cfg2 :: r.2.1,
              r.2.2)

/-- CreateWithBase of application.go: copy cross-namespace base configs,
merge base Services/Volumes in front of the new Application's own, then
validate and delegate to Create. -/
def CreateWithBase (env : Env) (ns : String) (app : Application)
    (base : Option Application) :
    Application × List Event × Except Err Application :=
  match base with
  | none =>
    match validName app with
    | .error e => (app, [], .error e)
    | .ok _ => Create env ns app
  | some b =>
    if ns = b.nameSpace then
      let merged : Application :=
        { app with services := b.services ++ app.services,
                   volumes := b.volumes ++ app.volumes }
      match validName merged with
      | .error e => (merged, [], .error e)
      | .ok _ => Create env ns merged
    else
      let r := constuctConfig env ns b.nameSpace b.volumes
      match r.2.2 with
      | some e => (app, r.2.1, .error e)
      | none =>
        let merged : Application :=
          { app with services := b.services ++ app.services,
                     volumes := r.1 ++ app.volumes }
        match validName merged with
        | .error e => (merged, r.2.1, .error e)
        | .ok _ =>
          let res := Create env ns merged
          (res.1, r.2.1 ++ res.2.1, res.2.2)

/-! ### Helper lemmas about validName -/

theorem firstBadMount_eq_none_iff (vf : List String) (ms : List VolumeMount) :
    firstBadMount vf ms = none ↔ ∀ m ∈ ms, m.name ∈ vf := by
  induction ms with
  | nil => simp [firstBadMount]
  | cons m ms ih =>
    by_cases h : m.name ∈ vf
    · simp [firstBadMount, h, ih]
    · simp [firstBadMount, h]

theorem firstBadMount_eq_some_not_all (vf : List String) (ms : List VolumeMount)
    (n : String) (h : firstBadMount vf ms = some n) :
    ¬ ∀ m ∈ ms, m.name ∈ vf := by
  intro hall
  rw [(firstBadMount_eq_none_iff vf ms).mpr hall] at h
  cases h

theorem checkVolumes_isOk_iff (vs : List Volume) (seen : List String) :
    (checkVolumes seen vs).isOk = true ↔
      (vs.map Volume.name).Nodup ∧ ∀ n ∈ vs.map Volume.name, n ∉ seen := by
  induction vs generalizing seen with
  | nil => simp [checkVolumes, Except.isOk, Except.toBool]
  | cons v vs ih =>
    by_cases h : v.name ∈ seen
    · rw [show checkVolumes seen (v :: vs) =
          .error (Err.appNameConflict volumesWhere v.name) from by
        simp [checkVolumes, h]]
      simp only [Except.isOk, Except.toBool, List.map_cons, List.nodup_cons,
        List.mem_cons, Bool.false_eq_true, false_iff, not_and]
      intro _ hall
      exact (hall v.name (Or.inl rfl)) h
    · rw [show checkVolumes seen (v :: vs) = checkVolumes (v.name :: seen) vs from by
        simp [checkVolumes, h]]
      rw [ih]
      simp only [List.map_cons, List.nodup_cons, List.mem_cons]
      constructor
      · rintro ⟨hnd, hall⟩
        refine ⟨⟨fun hc => (hall v.name hc) (Or.inl rfl), hnd⟩, ?_⟩
        rintro n (rfl | hn)
        · exact h
        · exact fun hs => (hall n hn) (Or.inr hs)
      · rintro ⟨⟨hvn, hnd⟩, hall⟩
        refine ⟨hnd, ?_⟩
        intro n hn
        rintro (rfl | hs)
        · exact hvn hn
        · exact (hall n (Or.inr hn)) hs

theorem checkVolumes_ok_mem (vs : List Volume) (seen vf : List String)
    (h : checkVolumes seen vs = .ok vf) :
    ∀ n, n ∈ vf ↔ n ∈ seen ∨ n ∈ vs.map Volume.name := by
  induction vs generalizing seen with
  | nil =>
    simp only [checkVolumes, Except.ok.injEq] at h
    subst h
    simp
  | cons v vs ih =>
    by_cases hm : v.name ∈ seen
    · simp [checkVolumes, hm] at h
    · rw [show checkVolumes seen (v :: vs) = checkVolumes (v.name :: seen) vs from by
        simp [checkVolumes, hm]] at h
      intro n
      rw [ih (v.name :: seen) h n]
      simp only [List.mem_cons, List.map_cons]
      tauto

theorem checkServices_ok_iff (vf : List String) (ss : List AppService)
    (seen : List String) :
    checkServices vf seen ss = .ok () ↔
      (ss.map AppService.name).Nodup ∧
      (∀ n ∈ ss.map AppService.name, n ∉ seen) ∧
      ∀ s ∈ ss, ∀ m ∈ s.volumeMounts, m.name ∈ vf := by
  induction ss generalizing seen with
  | nil => simp [checkServices]
  | cons s ss ih =>
    by_cases h : s.name ∈ seen
    · rw [show checkServices vf seen (s :: ss) =
          .error (Err.appNameConflict servicesWhere s.name) from by
        simp [checkServices, h]]
      simp only [List.map_cons, List.mem_cons, reduceCtorEq, false_iff, not_and]
      intro _ hall
      exact absurd h (hall s.name (Or.inl rfl))
    · cases hbm : firstBadMount vf s.volumeMounts with
      | some n =>
        rw [show checkServices vf seen (s :: ss) =
            .error (Err.volumeNotFoundWhenMount n) from by
          simp [checkServices, h, hbm]]
        simp only [reduceCtorEq, false_iff, not_and]
        intro _ _ hall
        exact firstBadMount_eq_some_not_all vf s.volumeMounts n hbm
          (hall s (List.mem_cons_self _ _))
      | none =>
        rw [show checkServices vf seen (s :: ss) =
            checkServices vf (s.name :: seen) ss from by
          simp [checkServices, h, hbm]]
        rw [ih]
        simp only [List.map_cons, List.nodup_cons, List.mem_cons]
        constructor
        · rintro ⟨hnd, hall, hmt⟩
          refine ⟨⟨fun hc => (hall s.name hc) (Or.inl rfl), hnd⟩, ?_, ?_⟩
          · rintro n2 (rfl | hn)
            · exact h
            · exact fun hs => (hall n2 hn) (Or.inr hs)
          · rintro x (rfl | hx)
            · exact (firstBadMount_eq_none_iff vf x.volumeMounts).mp hbm
            · exact hmt x hx
        · rintro ⟨⟨hsn, hnd⟩, hall, hmt⟩
          refine ⟨hnd, ?_, ?_⟩
          · intro n2 hn
            rintro (rfl | hs)
            · exact hsn hn
            · exact (hall n2 (Or.inr hn)) hs
          · exact fun x hx => hmt x (Or.inr hx)

theorem validName_ok_iff (app : Application) :
    validName app = .ok () ↔
      (app.volumes.map Volume.name).Nodup ∧
      (app.services.map AppService.name).Nodup ∧
      ∀ s ∈ app.services, ∀ m ∈ s.volumeMounts,
        m.name ∈ app.volumes.map Volume.name := by
  unfold validName
  cases hcv : checkVolumes [] app.volumes with
  | error e =>
    simp only [reduceCtorEq, false_iff, not_and]
    intro hnd
    have hok : (checkVolumes [] app.volumes).isOk = true :=
      (checkVolumes_isOk_iff app.volumes []).mpr ⟨hnd, by simp⟩
    rw [hcv] at hok
    simp [Except.isOk, Except.toBool] at hok
  | ok vf =>
    have hvnd : (app.volumes.map Volume.name).Nodup := by
      have hok : (checkVolumes [] app.volumes).isOk = true := by
        rw [hcv]; rfl
      exact ((checkVolumes_isOk_iff app.volumes []).mp hok).1
    have hmem := checkVolumes_ok_mem app.volumes [] vf hcv
    rw [checkServices_ok_iff]
    constructor
    · rintro ⟨h1, _, h3⟩
      refine ⟨hvnd, h1, fun s hs m hm => ?_⟩
      rcases (hmem m.name).mp (h3 s hs m hm) with hc | hc
      · cases hc
      · exact hc
    · rintro ⟨_, h2, h3⟩
      exact ⟨h2, by simp, fun s hs m hm => (hmem m.name).mpr (Or.inr (h3 s hs m hm))⟩

theorem firstDupName_none_iff (vs : List Volume) (seen : List String) :
    firstDupName seen vs = none ↔ (checkVolumes seen vs).isOk = true := by
  induction vs generalizing seen with
  | nil => simp [firstDupName, checkVolumes, Except.isOk, Except.toBool]
  | cons v vs ih =>
    by_cases h : v.name ∈ seen
    · simp [firstDupName, checkVolumes, h, Except.isOk, Except.toBool]
    · simp [firstDupName, checkVolumes, h, ih]

theorem firstDupName_some_checkVolumes (vs : List Volume) (seen : List String)
    (n : String) (h : firstDupName seen vs = some n) :
    checkVolumes seen vs = .error (Err.appNameConflict volumesWhere n) := by
  induction vs generalizing seen with
  | nil => simp [firstDupName] at h
  | cons v vs ih =>
    by_cases hm : v.name ∈ seen
    · simp only [firstDupName, if_pos hm, Option.some.injEq] at h
      subst h
      simp [checkVolumes, hm]
    · simp only [firstDupName, if_neg hm] at h
      rw [show checkVolumes seen (v :: vs) = checkVolumes (v.name :: seen) vs from by
        simp [checkVolumes, hm]]
      exact ih (v.name :: seen) h

/-! ### Concrete fixtures used by witnesses and counterexamples -/

/-- The namespace used in concrete test inputs. -/
def nsT : String := "t1"

/-- The application name used in concrete test inputs. -/
def anm : String := "app1"

/-- An environment in which every collaborator call succeeds. -/
def okEnv : Env where
  getApplication := fun ns n v => .ok { nameSpace := ns, name := n, version := v }
  createApplication := fun _ app => .ok { app with version := "v1" }
  updateApplication := fun _ app => .ok { app with version := "v2" }
  deleteApplication := fun _ _ => .ok ()
  getConfig := fun _ n _ => .ok { name := n, version := "cv9" }
  createConfig := fun _ c => .ok { c with version := "ncv" }
  getSecret := fun _ n _ => .ok { name := n, version := "sv9" }
  refreshConfigIndexByApp := fun _ _ _ => .ok ()
  refreshSecretIndexByApp := fun _ _ _ => .ok ()
  dbCreateApplication := fun _ => .ok ()
  dbDeleteApplication := fun _ _ _ => .ok ()
  randString := fun _ => "abcdefghi"

/-! ### C6: validate checks Volumes first and mounts against the full set -/

/-- C6: validName processes all Volumes before any Service: whenever the
Volume list has a duplicate name, the result is the AppNameConflict error
for the first duplicate in declaration order, whatever the Services are;
and validName accepts exactly when Volume names and Service names are
duplicate-free and every VolumeMount of every Service names some Volume of
the complete Volume set, so a mount of a Volume declared anywhere in the
sequence is accepted. -/
theorem validName_volumes_first_mounts_complete (app : Application) :
    (validName app = .ok () ↔
      (app.volumes.map Volume.name).Nodup ∧
      (app.services.map AppService.name).Nodup ∧
      ∀ s ∈ app.services, ∀ m ∈ s.volumeMounts,
        m.name ∈ app.volumes.map Volume.name) ∧
    (∀ n, firstDupName [] app.volumes = some n →
      ∀ ss, validName { app with services := ss } =
        .error (Err.appNameConflict volumesWhere n)) ∧
    (firstDupName [] app.volumes = none ↔ (app.volumes.map Volume.name).Nodup) := by
  refine ⟨validName_ok_iff app, ?_, ?_⟩
  · intro n h ss
    unfold validName
    rw [show ({ app with services := ss } : Application).volumes = app.volumes from rfl,
      firstDupName_some_checkVolumes app.volumes [] n h]
  · rw [firstDupName_none_iff, checkVolumes_isOk_iff]
    simp

/-- A service mounting the second declared Volume. -/
def svcLater : AppService := { name := "svc1", volumeMounts := [{ name := "vol2" }] }

/-- Application whose single Service mounts a Volume declared after other
volumes in the sequence (checked against the complete set). -/
def appLater : Application :=
  { nameSpace := nsT, name := anm, version := "",
    services := [svcLater],
    volumes := [{ name := "vol1" }, { name := "vol2" }] }

/-- Application with two Volumes both named "a" (and no Services yet). -/
def appDup : Application :=
  { nameSpace := nsT, name := anm, version := "",
    volumes := [{ name := "a" }, { name := "a" }] }

/-- A Service with a dangling mount, to show the Volume conflict wins. -/
def svcDangling : AppService := { name := "svc9", volumeMounts := [{ name := "zzz" }] }

theorem validName_volumes_first_mounts_complete_witness :
    validName appLater = Except.ok () ∧
    validName { appDup with services := [svcDangling] } =
      .error (Err.appNameConflict volumesWhere ("a")) :=
  ⟨(validName_volumes_first_mounts_complete appLater).1.mpr (by decide),
   (validName_volumes_first_mounts_complete appDup).2.1 ("a") rfl [svcDangling]⟩

/-! ### C8: Update on validation failure touches no collaborator -/

/-- C8: if name validation fails, Update returns precisely the validation
error, issues no collaborator call (empty event trace), and leaves the
caller's Application untouched. -/
theorem Update_validation_failure_no_calls (env : Env) (ns : String)
    (app : Application) (e : Err) (h : validName app = .error e) :
    Update env ns app = (app, [], .error e) := by
  simp [Update, h]

theorem Update_validation_failure_no_calls_witness :
    Update okEnv nsT { appDup with services := [svcDangling] } =
      ({ appDup with services := [svcDangling] }, [],
        .error (Err.appNameConflict volumesWhere ("a"))) :=
  Update_validation_failure_no_calls okEnv nsT { appDup with services := [svcDangling] }
    (Err.appNameConflict volumesWhere ("a")) rfl

/-! ### C4: Get normalizes not-found store errors -/

/-- C4: Get passes a successful lookup through; a lookup error whose text
contains "not found" is normalized to ResourceNotFound with type "app" and
the requested name; any other lookup error is returned unchanged. -/
theorem Get_notfound_normalized (env : Env) (ns name version : String) :
    (∀ app, env.getApplication ns name version = .ok app →
      (Get env ns name version).2 = .ok app) ∧
    (∀ e, env.getApplication ns name version = .error e →
      strContains e.text notFoundText = true →
      (Get env ns name version).2 = .error (Err.resourceNotFound appT name)) ∧
    (∀ e, env.getApplication ns name version = .error e →
      strContains e.text notFoundText = false →
      (Get env ns name version).2 = .error e) := by
  refine ⟨?_, ?_, ?_⟩
  · intro app h
    simp [Get, h]
  · intro e h h2
    simp [Get, h, h2]
  · intro e h h2
    simp [Get, h, h2]

/-- Store whose application lookup fails with a not-found style message. -/
def envGetNF : Env :=
  { okEnv with getApplication := fun _ _ _ => .error (.store ("application is not found in store")) }

/-- Store whose application lookup fails with an unrelated message. -/
def envGetOther : Env :=
  { okEnv with getApplication := fun _ _ _ => .error (.store ("connection refused")) }

theorem Get_notfound_normalized_witness :
    (Get envGetNF nsT anm ("v3")).2 = .error (Err.resourceNotFound appT anm) ∧
    (Get envGetOther nsT anm ("v3")).2 = .error (Err.store ("connection refused")) :=
  ⟨(Get_notfound_normalized envGetNF nsT anm ("v3")).2.1
      (Err.store ("application is not found in store")) rfl rfl,
   (Get_notfound_normalized envGetOther nsT anm ("v3")).2.2
      (Err.store ("connection refused")) rfl rfl⟩

/-! ### C5: Delete is gated only by the primary store delete -/

/-- C5: Delete returns the primary store delete's error when that fails;
once the primary delete succeeds Delete reports success, whatever the
index-refresh and history-store calls do (env is arbitrary here, so in
particular those calls may fail). -/
theorem Delete_primary_gates (env : Env) (ns name version : String) :
    (∀ e, env.deleteApplication ns name = .error e →
      (Delete env ns name version).2 = .error e) ∧
    (env.deleteApplication ns name = .ok () →
      (Delete env ns name version).2 = .ok ()) := by
  constructor
  · intro e h
    simp [Delete, h]
  · intro h
    simp [Delete, h]

/-- Environment whose primary application delete fails. -/
def envDelFail : Env :=
  { okEnv with deleteApplication := fun _ _ => .error (.store ("delete failed")) }

/-- Environment where the primary delete succeeds but the index refreshes
and the history-store deletion all fail. -/
def envDelBestEffortFail : Env :=
  { okEnv with
    refreshConfigIndexByApp := fun _ _ _ => .error (.store ("index down")),
    refreshSecretIndexByApp := fun _ _ _ => .error (.store ("index down")),
    dbDeleteApplication := fun _ _ _ => .error (.store ("db down")) }

theorem Delete_primary_gates_witness :
    (Delete envDelFail nsT anm ("v7")).2 = .error (Err.store ("delete failed")) ∧
    (Delete envDelBestEffortFail nsT anm ("v7")).2 = .ok () :=
  ⟨(Delete_primary_gates envDelFail nsT anm ("v7")).1 (Err.store ("delete failed")) rfl,
   (Delete_primary_gates envDelBestEffortFail nsT anm ("v7")).2 rfl⟩

/-! ### C9: the version argument of Delete only reaches the history store -/

/-- C9: the result of Delete does not depend on the version argument, the
primary store delete is invoked with (namespace, name) only, and the
version only appears in the best-effort history-store deletion record. -/
theorem Delete_version_only_history (env : Env) (ns name v1 v2 : String) :
    (Delete env ns name v1).2 = (Delete env ns name v2).2 ∧
    (Delete env ns name v1).1 =
      (match env.deleteApplication ns name with
        | .error _ => [Event.storeDeleteApp ns name]
        | .ok _ => [Event.storeDeleteApp ns name,
            Event.refreshConfigIndex ns name [],
            Event.refreshSecretIndex ns name [],
            Event.dbDeleteApp ns name v1]) := by
  cases h : env.deleteApplication ns name <;> simp [Delete, h]

/-! ### C2: in Update, index-refresh failures are in fact fatal -/

/-- Environment where the store update succeeds but the config-index
refresh fails. -/
def envUpdIdxFail : Env :=
  { okEnv with refreshConfigIndexByApp := fun _ _ _ => .error (.store ("index down")) }

/-- A well-formed application with no volumes or services. -/
def appPlain : Application := { nameSpace := nsT, name := anm, version := "1" }

/-- C2 counterexample: the store update succeeds (the environment's update
always succeeds), the config-index refresh then fails, and Update returns
that refresh error instead of the updated Application — the failure is not
swallowed. -/
theorem Update_swallows_index_failure_counterexample :
    envUpdIdxFail.updateApplication nsT appPlain = .ok { appPlain with version := "v2" } ∧
    (Update envUpdIdxFail nsT appPlain).2.2 = .error (Err.store ("index down")) :=
  ⟨rfl, rfl⟩

/-- C2 amended: in Update, once the store update has succeeded, a failure
of either index refresh is fatal — Update returns that error; only the
history-store write is non-fatal (the environment is arbitrary, so the
last part holds whatever the history store does). -/
theorem Update_index_refresh_failure_fatal (env : Env) (ns : String)
    (app : Application) (vols : List Volume) (evs : List Event)
    (cs ss : List String) (newApp : Application)
    (hv : validName app = .ok ())
    (hres : getConfigsAndSecrets env ns app.volumes = (vols, evs, .ok (cs, ss)))
    (hupd : env.updateApplication ns { app with volumes := vols } = .ok newApp) :
    (∀ e, env.refreshConfigIndexByApp ns newApp.name cs = .error e →
      (Update env ns app).2.2 = .error e) ∧
    (∀ e, env.refreshConfigIndexByApp ns newApp.name cs = .ok () →
      env.refreshSecretIndexByApp ns newApp.name ss = .error e →
      (Update env ns app).2.2 = .error e) ∧
    (env.refreshConfigIndexByApp ns newApp.name cs = .ok () →
      env.refreshSecretIndexByApp ns newApp.name ss = .ok () →
      (Update env ns app).2.2 = .ok newApp) := by
  refine ⟨?_, ?_, ?_⟩
  · intro e h
    simp [Update, hv, hres, hupd, h]
  · intro e h h2
    simp [Update, hv, hres, hupd, h, h2]
  · intro h h2
    simp only [Update, hv, hres, hupd, h, h2]
    split <;> rfl

/-- Environment where only the secret-index refresh fails. -/
def envUpdSecFail : Env :=
  { okEnv with refreshSecretIndexByApp := fun _ _ _ => .error (.store ("sindex down")) }

theorem Update_index_refresh_failure_fatal_witness :
    (Update envUpdSecFail nsT appPlain).2.2 = .error (Err.store ("sindex down")) :=
  (Update_index_refresh_failure_fatal envUpdSecFail nsT appPlain [] [] [] []
      { appPlain with version := "v2" } rfl rfl rfl).2.1
    (Err.store ("sindex down")) rfl rfl

/-! ### C10: reference resolution mutates the caller's Application in place -/

/-- The pure effect of reference resolution on one Volume: overwrite the
Config/Secret reference version with the successfully fetched one. -/
def resolvePure (env : Env) (ns : String) (vol : Volume) : Volume :=
  let v1 : Volume :=
    match vol.config with
    | none => vol
    | some ref =>
      match env.getConfig ns ref.name emptyV with
      | .ok cfg => { vol with config := some { ref with version := cfg.version } }
      | .error _ => vol
  match v1.secret with
  | none => v1
  | some sref =>
    match env.getSecret ns sref.name emptyV with
    | .ok sec => { v1 with secret := some { sref with version := sec.version } }
    | .error _ => v1

theorem resolveVolume_none_eq (env : Env) (ns : String) (v : Volume)
    (h : (resolveVolume env ns v).2.2.2.2 = none) :
    (resolveVolume env ns v).1 = resolvePure env ns v := by
  cases hc : v.config with
  | none =>
    cases hs : v.secret with
    | none => simp [resolveVolume, resolvePure, hc, hs]
    | some sref =>
      cases hg : env.getSecret ns sref.name emptyV with
      | error e => simp [resolveVolume, hc, hs, hg] at h
      | ok sec => simp [resolveVolume, resolvePure, hc, hs, hg]
  | some ref =>
    cases hgc : env.getConfig ns ref.name emptyV with
    | error e => simp [resolveVolume, hc, hgc] at h
    | ok cfg =>
      cases hs : v.secret with
      | none => simp [resolveVolume, resolvePure, hc, hgc, hs]
      | some sref =>
        cases hg : env.getSecret ns sref.name emptyV with
        | error e => simp [resolveVolume, hc, hgc, hs, hg] at h
        | ok sec => simp [resolveVolume, resolvePure, hc, hgc, hs, hg]

theorem getConfigsAndSecrets_ok_map (env : Env) (ns : String)
    (vs vs2 : List Volume) (evs : List Event) (cs ss : List String)
    (h : getConfigsAndSecrets env ns vs = (vs2, evs, .ok (cs, ss))) :
    vs2 = vs.map (resolvePure env ns) := by
  induction vs generalizing vs2 evs cs ss with
  | nil =>
    simp only [getConfigsAndSecrets, Prod.mk.injEq] at h
    simp [← h.1]
  | cons v vs ih =>
    simp only [getConfigsAndSecrets] at h
    cases hr : (resolveVolume env ns v).2.2.2.2 with
    | some e => rw [hr] at h; simp at h
    | none =>
      rw [hr] at h
      cases hr2 : (getConfigsAndSecrets env ns vs).2.2 with
      | error e => rw [hr2] at h; simp at h
      | ok p =>
        rw [hr2] at h
        simp only [Prod.mk.injEq] at h
        have hfull : getConfigsAndSecrets env ns vs =
            ((getConfigsAndSecrets env ns vs).1,
             (getConfigsAndSecrets env ns vs).2.1, .ok (p.1, p.2)) := by
          rw [← hr2]
        have hmap := ih (getConfigsAndSecrets env ns vs).1
          (getConfigsAndSecrets env ns vs).2.1 p.1 p.2 hfull
        rw [← h.1, hmap, resolveVolume_none_eq env ns v hr]
        simp

/-- Caller's view of the Application after Create: exactly the argument with
its Volume list replaced by the resolution pass's output, whatever the
downstream collaborator outcomes. -/
theorem Create_caller_state (env : Env) (ns : String) (app : Application) :
    (Create env ns app).1 =
      { app with volumes := (getConfigsAndSecrets env ns app.volumes).1 } := by
  unfold Create
  dsimp only
  repeat' split
  all_goals rfl

/-- Caller's view of the Application after Update, once validation passed. -/
theorem Update_caller_state (env : Env) (ns : String) (app : Application)
    (hv : validName app = .ok ()) :
    (Update env ns app).1 =
      { app with volumes := (getConfigsAndSecrets env ns app.volumes).1 } := by
  simp only [Update, hv]
  repeat' split
  all_goals rfl

/-- C10: when reference resolution succeeds, Create and Update leave the
caller's Application argument equal to the original with every Volume
replaced by its resolved form — also when the store persist, an index
refresh or the history write later fails (the environment is arbitrary) —
and the resolved form only overwrites Config/Secret reference versions
with the fetched ones, preserving every other field. -/
theorem resolution_mutates_caller_in_place (env : Env) (ns : String)
    (app : Application) (vols : List Volume) (evs : List Event)
    (cs ss : List String)
    (hres : getConfigsAndSecrets env ns app.volumes = (vols, evs, .ok (cs, ss))) :
    ((Create env ns app).1 =
      { app with volumes := app.volumes.map (resolvePure env ns) }) ∧
    (validName app = .ok () →
      (Update env ns app).1 =
        { app with volumes := app.volumes.map (resolvePure env ns) }) ∧
    (∀ v, (resolvePure env ns v).name = v.name ∧
      ((resolvePure env ns v).config).map ObjectReference.name =
        (v.config).map ObjectReference.name ∧
      ((resolvePure env ns v).secret).map ObjectReference.name =
        (v.secret).map ObjectReference.name) ∧
    (∀ v ref cfg, v.config = some ref →
      env.getConfig ns ref.name emptyV = .ok cfg →
      (resolvePure env ns v).config = some { ref with version := cfg.version }) ∧
    (∀ v ref sec, v.secret = some ref →
      env.getSecret ns ref.name emptyV = .ok sec →
      (resolvePure env ns v).secret = some { ref with version := sec.version }) := by
  have hmap : (getConfigsAndSecrets env ns app.volumes).1 =
      app.volumes.map (resolvePure env ns) := by
    have hm := getConfigsAndSecrets_ok_map env ns app.volumes vols evs cs ss hres
    rw [hres]
    exact hm
  refine ⟨?_, ?_, ?_, ?_, ?_⟩
  · rw [Create_caller_state, hmap]
  · intro hv
    rw [Update_caller_state env ns app hv, hmap]
  · intro v
    unfold resolvePure
    cases hc : v.config with
    | none =>
      cases hs : v.secret with
      | none => simp [hc, hs]
      | some sref =>
        cases hg : env.getSecret ns sref.name emptyV with
        | error e => simp [hc, hs, hg]
        | ok sec => simp [hc, hs, hg]
    | some ref =>
      cases hgc : env.getConfig ns ref.name emptyV with
      | error e =>
        cases hs : v.secret with
        | none => simp [hc, hs, hgc]
        | some sref =>
          cases hg : env.getSecret ns sref.name emptyV with
          | error e2 => simp [hc, hs, hgc, hg]
          | ok sec => simp [hc, hs, hgc, hg]
      | ok cfg =>
        cases hs : v.secret with
        | none => simp [hc, hs, hgc]
        | some sref =>
          cases hg : env.getSecret ns sref.name emptyV with
          | error e2 => simp [hc, hs, hgc, hg]
          | ok sec => simp [hc, hs, hgc, hg]
  · intro v ref cfg hc hgc
    unfold resolvePure
    cases hs : v.secret with
    | none => simp [hc, hgc, hs]
    | some sref =>
      cases hg : env.getSecret ns sref.name emptyV with
      | error e => simp [hc, hgc, hs, hg]
      | ok sec => simp [hc, hgc, hs, hg]
  · intro v ref sec hsref hg
    unfold resolvePure
    cases hc : v.config with
    | none => simp [hc, hsref, hg]
    | some cref =>
      cases hgc : env.getConfig ns cref.name emptyV with
      | error e => simp [hc, hsref, hg, hgc]
      | ok cfg => simp [hc, hsref, hg, hgc]

/-- Environment where resolution succeeds but the store persist fails. -/
def envCreateFail : Env :=
  { okEnv with createApplication := fun _ _ => .error (.store ("store down")) }

/-- A Volume carrying both a Config and a Secret reference. -/
def volBoth : Volume :=
  { name := "vol1",
    config := some { name := "c1", version := "" },
    secret := some { name := "s1", version := "" } }

/-- An Application with one doubly-referencing Volume. -/
def appBoth : Application :=
  { nameSpace := nsT, name := anm, version := "1", volumes := [volBoth] }

theorem resolution_mutates_caller_in_place_witness :
    ((Create envCreateFail nsT appBoth).1 =
      { appBoth with volumes := appBoth.volumes.map (resolvePure envCreateFail nsT) }) ∧
    (resolvePure envCreateFail nsT volBoth).config =
      some { name := "c1", version := "cv9" } :=
  ⟨(resolution_mutates_caller_in_place envCreateFail nsT appBoth
      [{ name := "vol1",
         config := some { name := "c1", version := "cv9" },
         secret := some { name := "s1", version := "sv9" } }]
      [Event.storeGetConfig nsT ("c1") emptyV, Event.storeGetSecret nsT ("s1") emptyV]
      [("c1")] [("s1")] rfl).1,
   (resolution_mutates_caller_in_place envCreateFail nsT appBoth
      [{ name := "vol1",
         config := some { name := "c1", version := "cv9" },
         secret := some { name := "s1", version := "sv9" } }]
      [Event.storeGetConfig nsT ("c1") emptyV, Event.storeGetSecret nsT ("s1") emptyV]
      [("c1")] [("s1")] rfl).2.2.2.1 volBoth
      { name := "c1", version := "" } { name := "c1", version := "cv9" } rfl rfl⟩

/-! ### C7: CreateWithBase retries config creation once under a random name -/

/-- C7: for a cross-namespace base whose Volume references a Config: when
creating the copied Config in the target namespace fails, exactly one
retry is issued, under the original name suffixed with a dash and the
9-character random token; if the retry also fails the whole CreateWithBase
fails with that error; if the retry succeeds the Volume's reference takes
the created Config's (renamed) name and newly assigned version; if the
first create succeeds the reference keeps its name and only takes the new
version.  The suffixed name always differs from the original. -/
theorem constuctConfig_collision_retry (env : Env) (ns : String)
    (b app : Application) (v : Volume) (vs : List Volume)
    (ref : ObjectReference) (cfg : Config)
    (hvols : b.volumes = v :: vs)
    (hvc : v.config = some ref)
    (hns : ns ≠ b.nameSpace)
    (hget : env.getConfig b.nameSpace ref.name emptyV = .ok cfg)
    (hlen : (env.randString 9).length = 9) :
    (∀ e0 e1, env.createConfig ns cfg = .error e0 →
      env.createConfig ns { cfg with name := cfg.name ++ dash ++ env.randString 9 } =
        .error e1 →
      (constuctConfig env ns b.nameSpace b.volumes).2.2 = some e1 ∧
      (constuctConfig env ns b.nameSpace b.volumes).2.1 =
        [Event.storeGetConfig b.nameSpace ref.name emptyV,
         Event.storeCreateConfig ns cfg,
         Event.storeCreateConfig ns
           { cfg with name := cfg.name ++ dash ++ env.randString 9 }] ∧
      (CreateWithBase env ns app (some b)).2.2 = .error e1) ∧
    (∀ e0 c, env.createConfig ns cfg = .error e0 →
      env.createConfig ns { cfg with name := cfg.name ++ dash ++ env.randString 9 } =
        .ok c →
      (constuctConfig env ns b.nameSpace b.volumes).1 =
        { v with config := some { name := c.name, version := c.version } } ::
          (constuctConfig env ns b.nameSpace vs).1 ∧
      (constuctConfig env ns b.nameSpace b.volumes).2.1 =
        Event.storeGetConfig b.nameSpace ref.name emptyV ::
          Event.storeCreateConfig ns cfg ::
          Event.storeCreateConfig ns
            { cfg with name := cfg.name ++ dash ++ env.randString 9 } ::
          (constuctConfig env ns b.nameSpace vs).2.1) ∧
    (∀ c, env.createConfig ns cfg = .ok c →
      (constuctConfig env ns b.nameSpace b.volumes).1 =
        { v with config := some { ref with version := c.version } } ::
          (constuctConfig env ns b.nameSpace vs).1 ∧
      (constuctConfig env ns b.nameSpace b.volumes).2.1 =
        Event.storeGetConfig b.nameSpace ref.name emptyV ::
          Event.storeCreateConfig ns cfg ::
          (constuctConfig env ns b.nameSpace vs).2.1) ∧
    ((cfg.name ++ dash ++ env.randString 9).length = cfg.name.length + 10 ∧
      cfg.name ++ dash ++ env.randString 9 ≠ cfg.name) := by
  have hd : dash.length = 1 := rfl
  refine ⟨?_, ?_, ?_, ?_, ?_⟩
  · intro e0 e1 h0 h1
    refine ⟨?_, ?_, ?_⟩
    · rw [hvols]
      simp [constuctConfig, hvc, hget, h0, h1]
    · rw [hvols]
      simp [constuctConfig, hvc, hget, h0, h1]
    · simp [CreateWithBase, hns, hvols, constuctConfig, hvc, hget, h0, h1]
  · intro e0 c h0 h1
    rw [hvols]
    simp [constuctConfig, hvc, hget, h0, h1]
  · intro c h0
    rw [hvols]
    simp [constuctConfig, hvc, hget, h0]
  · rw [String.length_append, String.length_append, hlen, hd]
  · intro heq
    have hl := congrArg String.length heq
    rw [String.length_append, String.length_append, hlen, hd] at hl
    omega

/-- Environment where creating a config named "cfg1" collides and any other
name succeeds. -/
def envCfgCollide : Env :=
  { okEnv with
    createConfig := fun _ c =>
      if c.name = ("cfg1") then .error (.store ("config exists"))
      else .ok { c with version := "nv2" } }

/-- The base Volume referencing config "cfg1". -/
def volC7 : Volume := { name := "bvol", config := some { name := "cfg1", version := "" } }

/-- A base Application living in another namespace. -/
def baseC7 : Application :=
  { nameSpace := "base-ns", name := "bapp", version := "1", volumes := [volC7] }

theorem constuctConfig_collision_retry_witness :
    ((constuctConfig envCfgCollide nsT baseC7.nameSpace baseC7.volumes).1 =
      [{ volC7 with config := some { name := ("cfg1-abcdefghi"), version := ("nv2") } }]) ∧
    ((constuctConfig okEnv nsT baseC7.nameSpace baseC7.volumes).1 =
      [{ volC7 with config := some { name := ("cfg1"), version := ("ncv") } }]) :=
  ⟨((constuctConfig_collision_retry envCfgCollide nsT baseC7 appPlain volC7 []
        { name := ("cfg1"), version := "" } { name := ("cfg1"), version := ("cv9") }
        rfl rfl (by decide) rfl rfl).2.1
      (Err.store ("config exists"))
      { name := ("cfg1-abcdefghi"), version := ("nv2") } rfl rfl).1,
   ((constuctConfig_collision_retry okEnv nsT baseC7 appPlain volC7 []
        { name := ("cfg1"), version := "" } { name := ("cfg1"), version := ("cv9") }
        rfl rfl (by decide) rfl rfl).2.2.1
      { name := ("cfg1"), version := ("ncv") } rfl).1⟩

/-! ### C1 and C3: Create drops the resolution error (source-level bug) -/

/-- Environment where every config fetch fails but everything else works. -/
def envResFail : Env :=
  { okEnv with getConfig := fun _ _ _ => .error (.store ("boom")) }

/-- An Application whose single Volume references a Config. -/
def appCfgRef : Application :=
  { nameSpace := nsT, name := anm, version := "",
    volumes := [{ name := "vol1", config := some { name := "c0", version := "" } }] }

/-- C1: evaluation at the failing input.  Resolution of the Volume's Config
reference fails, yet Create returns success and does persist the
Application to the resource store (the storeCreateApp event is issued):
in the source, the error of getConfigsAndSecrets is overwritten unchecked
by the first index-refresh call. -/
theorem Create_ignores_resolution_failure :
    (getConfigsAndSecrets envResFail nsT appCfgRef.volumes).2.2 =
      .error (Err.store ("boom")) ∧
    (Create envResFail nsT appCfgRef).2.2 = .ok { appCfgRef with version := "v1" } ∧
    Event.storeCreateApp nsT appCfgRef ∈ (Create envResFail nsT appCfgRef).2.1 := by
  refine ⟨rfl, rfl, ?_⟩
  decide

/-- Names of the Configs referenced by the Application's Volumes. -/
def referencedConfigNames (app : Application) : List String :=
  app.volumes.filterMap fun v => v.config.map fun r => r.name

/-- Names of the Secrets referenced by the Application's Volumes. -/
def referencedSecretNames (app : Application) : List String :=
  app.volumes.filterMap fun v => v.secret.map fun r => r.name

/-- Environment where every secret fetch fails but everything else works. -/
def envSecFail : Env :=
  { okEnv with getSecret := fun _ _ _ => .error (.store ("boom2")) }

/-- An Application whose single Volume references a Secret. -/
def appSecRef : Application :=
  { nameSpace := nsT, name := anm, version := "",
    volumes := [{ name := "vol1", secret := some { name := "s0", version := "" } }] }

/-- C3: evaluation at the failing input.  The Application references Secret
"s0", Create returns success, yet RefreshSecretIndexByApp was invoked with
the empty list and never with the referenced names: when resolution fails,
Create goes on with nil name lists instead of aborting. -/
theorem Create_refresh_not_exact_names :
    referencedSecretNames appSecRef = [("s0")] ∧
    (Create envSecFail nsT appSecRef).2.2 = .ok { appSecRef with version := "v1" } ∧
    Event.refreshSecretIndex nsT appSecRef.name [] ∈
      (Create envSecFail nsT appSecRef).2.1 ∧
    Event.refreshSecretIndex nsT appSecRef.name (referencedSecretNames appSecRef) ∉
      (Create envSecFail nsT appSecRef).2.1 := by
  refine ⟨rfl, rfl, by decide, by decide⟩

end Baetyl
